import Mathlib

/-!
Verification of the Category5 compositor's property-store ("Atmosphere")
skiplist ordering, focus state machine, visible-window iterator and input
grab handling.

The skiplist / focus / iterator operations are translated from
`src/category5/atmosphere/skiplist.rs` (the current revision) and from
`compositor/src/category5/utils/atmosphere/skiplist.rs` (the older
compositor revision).  The generic property store and the id allocator are
not present in the sources (only the getter/setter generator
`atmos_gen/src/lib.rs` and the callers are); following the spec they are
modelled as total maps with plain read/write semantics, and the enter/leave
notification sinks are modelled as an event log.
-/

namespace Category5

/-- Window / client handles.  `utils::WindowId` is an opaque integer handle;
modelled as `Nat`. -/
abbrev WindowId := Nat

/-- Client ids, same underlying representation. -/
abbrev ClientId := Nat

/-- Notifications delivered to the opaque seat sink (`Input::keyboard_enter`,
`Input::keyboard_leave`, `wl_pointer.button` delivery).  The spec treats the
delivery functions as an opaque notification sink, so each call is recorded
as one event. -/
inductive Ev where
  | kbEnter (id : WindowId)
  | kbLeave (id : WindowId)
  | button (id : WindowId) (code : Nat) (released : Bool)
  deriving DecidableEq, Repr

/-- Surface roles, only the distinction used by the input code
(`Role::xdg_shell_toplevel` versus anything else) is kept. -/
inductive Role where
  | xdg_shell_toplevel
  | other
  deriving DecidableEq, Repr

/-- Modelled from the spec: the property store of the Atmosphere.  The real
store keeps `(entity id, property kind) -> value` tables behind generated
getters/setters (`atmos_gen`); each property kind used by the skiplist,
focus, and input code is one field here.  Window-indexed properties are
total maps defaulting to "not set" / `false`. -/
structure Atmosphere where
  /-- window property `skiplist_next` -/
  skiplist_next : WindowId → Option WindowId := fun _ => none
  /-- window property `skiplist_prev` -/
  skiplist_prev : WindowId → Option WindowId := fun _ => none
  /-- global property: window focus -/
  win_focus : Option WindowId := none
  /-- global property: surface focus -/
  surf_focus : Option WindowId := none
  /-- window property: parent window of a subsurface -/
  parent_window : WindowId → Option WindowId := fun _ => none
  /-- window property: top child in the subsurface stack -/
  top_child : WindowId → Option WindowId := fun _ => none
  /-- window property: root window of a subsurface (`None` for roots) -/
  root_window : WindowId → Option WindowId := fun _ => none
  /-- global property: grabbed window -/
  grabbed : Option WindowId := none
  /-- global property: resizing window -/
  resizing : Option WindowId := none
  /-- per-surface role (`s_role`) -/
  role : WindowId → Option Role := fun _ => none
  /-- per-surface xdg toplevel `tl_resizing` flag -/
  tl_resizing : WindowId → Bool := fun _ => false
  /-- whether the window's client has a seat (`get_seat_from_window_id`) -/
  has_seat : WindowId → Bool := fun _ => false
  /-- the notification log, oldest first -/
  log : List Ev := []

/-- Pointwise update of a window-indexed property map. -/
def upd (f : WindowId → Option WindowId) (k : WindowId) (v : Option WindowId) :
    WindowId → Option WindowId :=
  fun x => if x = k then v else f x

@[simp] theorem upd_same (f : WindowId → Option WindowId) (k v) : upd f k v k = v := by
  simp [upd]

@[simp] theorem upd_other (f : WindowId → Option WindowId) (k v x) (h : x ≠ k) :
    upd f k v x = f x := by
  simp [upd, h]

/-! Generated getters/setters (`atmos_gen` derives these from the property
enums, which are not in the sources).  Modelled from the spec: `set`
overwrites the `(id, kind)` slot, `get` reads it. -/

def get_skiplist_next (s : Atmosphere) (id : WindowId) : Option WindowId :=
  s.skiplist_next id

def get_skiplist_prev (s : Atmosphere) (id : WindowId) : Option WindowId :=
  s.skiplist_prev id

def set_skiplist_next (s : Atmosphere) (id : WindowId) (v : Option WindowId) :
    Atmosphere :=
  { s with skiplist_next := upd s.skiplist_next id v }

def set_skiplist_prev (s : Atmosphere) (id : WindowId) (v : Option WindowId) :
    Atmosphere :=
  { s with skiplist_prev := upd s.skiplist_prev id v }

def get_win_focus (s : Atmosphere) : Option WindowId := s.win_focus

def set_win_focus (s : Atmosphere) (v : Option WindowId) : Atmosphere :=
  { s with win_focus := v }

def set_surf_focus (s : Atmosphere) (v : Option WindowId) : Atmosphere :=
  { s with surf_focus := v }

def get_root_window (s : Atmosphere) (id : WindowId) : Option WindowId :=
  s.root_window id

def get_top_child (s : Atmosphere) (id : WindowId) : Option WindowId :=
  s.top_child id

def set_top_child (s : Atmosphere) (id : WindowId) (v : Option WindowId) :
    Atmosphere :=
  { s with top_child := upd s.top_child id v }

def set_parent_window (s : Atmosphere) (id : WindowId) (v : Option WindowId) :
    Atmosphere :=
  { s with parent_window := upd s.parent_window id v }

/-- Modelled from the spec: `get_window_in_focus` reads the global window
focus property (the iterator is "rooted at the current global focus"). -/
def get_window_in_focus (s : Atmosphere) : Option WindowId := s.win_focus

/-- `Input::keyboard_enter` — recorded as a notification event. -/
def keyboard_enter (s : Atmosphere) (id : WindowId) : Atmosphere :=
  { s with log := s.log ++ [Ev.kbEnter id] }

/-- `Input::keyboard_leave` — recorded as a notification event. -/
def keyboard_leave (s : Atmosphere) (id : WindowId) : Atmosphere :=
  { s with log := s.log ++ [Ev.kbLeave id] }

/-- `Atmosphere::skiplist_remove_window` (src/category5/atmosphere/skiplist.rs
lines 22-33): unlink `id`; its own next/prev are left stale. -/
def skiplist_remove_window (s : Atmosphere) (id : WindowId) : Atmosphere :=
  let next := get_skiplist_next s id
  let prev := get_skiplist_prev s id
  let s1 := match prev with
    | some p => set_skiplist_next s p next
    | none => s
  match next with
  | some n => set_skiplist_prev s1 n prev
  | none => s1

/-- `Atmosphere::skiplist_place_above` (lines 38-52): remove `id`, then splice
it immediately before `target`. -/
def skiplist_place_above (s : Atmosphere) (id target : WindowId) : Atmosphere :=
  -- remove id from its skiplist just in case
  let s1 := skiplist_remove_window s id
  let prev := get_skiplist_prev s1 target
  let s2 := match prev with
    | some p => set_skiplist_next s1 p (some id)
    | none => s1
  let s3 := set_skiplist_prev s2 target (some id)
  -- Now point id to the target and its neighbor
  let s4 := set_skiplist_prev s3 id prev
  set_skiplist_next s4 id (some target)

/-- `Atmosphere::skiplist_place_below` (lines 57-71): remove `id`, then splice
it immediately after `target`. -/
def skiplist_place_below (s : Atmosphere) (id target : WindowId) : Atmosphere :=
  -- remove id from its skiplist just in case
  let s1 := skiplist_remove_window s id
  let next := get_skiplist_next s1 target
  let s2 := match next with
    | some n => set_skiplist_prev s1 n (some id)
    | none => s1
  let s3 := set_skiplist_next s2 target (some id)
  -- Now point id to the target and its neighbor
  let s4 := set_skiplist_prev s3 id (some target)
  set_skiplist_next s4 id next

/-- The `update_app` branch of `Atmosphere::focus_on` (lines 108-119).  The
source line `self.set_skiplist_next(id, prev_focus)` names the local binding
`prev_focus` of the older compositor revision; in this revision the binding
in scope is `prev_win_focus`, which equals `Some(prev)` inside this branch. -/
def focus_on_update (s : Atmosphere) (win : Option WindowId) (id prev : WindowId)
    (prev_win_focus : Option WindowId) : Atmosphere :=
  let s1 := set_win_focus s win
  let s2 := skiplist_remove_window s1 id
  -- point the previous focus at the new focus
  let s3 := set_skiplist_prev s2 prev win
  let s4 := set_skiplist_next s3 id prev_win_focus
  let s5 := set_skiplist_prev s4 id none
  -- Send leave event(s) to the old focus
  keyboard_leave s5 prev

/-- The tail of `Atmosphere::focus_on` (lines 122-126): set the surface focus
and send the enter event(s). -/
def focus_on_tail (s : Atmosphere) (win : Option WindowId) (id : WindowId) :
    Atmosphere :=
  let s1 := set_surf_focus s win
  -- Send enter event(s) to the new focus, after the leave events are sent
  keyboard_enter s1 id

/-- `Atmosphere::focus_on` (src/category5/atmosphere/skiplist.rs lines
86-134). -/
def focus_on (s : Atmosphere) (win : Option WindowId) : Atmosphere :=
  match win with
  | some id =>
    -- check if a new app was selected
    let prev_win_focus := get_win_focus s
    match prev_win_focus with
    | some prev =>
      (match get_root_window s id with
       | some root =>
         if root ≠ prev then
           focus_on_tail (focus_on_update s win id prev prev_win_focus) win id
         else
           -- If this window is already selected, just bail
           s
       | none =>
         -- If the root window was None, then win *is* a root window
         if prev ≠ id then
           focus_on_tail (focus_on_update s win id prev prev_win_focus) win id
         else
           focus_on_tail s win id)
    | none => focus_on_tail s win id
  | none =>
    -- Otherwise we have unselected any surfaces, so clear both focus types
    let s1 := set_win_focus s none
    set_surf_focus s1 none

/-- `Atmosphere::add_new_top_subsurf` (lines 136-146). -/
def add_new_top_subsurf (s : Atmosphere) (parent win : WindowId) : Atmosphere :=
  let s1 := set_parent_window s win (some parent)
  -- Add ourselves to the top of the skiplist
  let old_top := get_top_child s1 parent
  let s2 := match old_top with
    | some top => skiplist_place_above s1 win top
    | none => s1
  set_top_child s2 parent (some win)

/-- `VisibleWindowIterator` (lines 170-174). -/
structure VisibleWindowIterator where
  vwi_cur : Option WindowId

/-- `IntoIterator for &Atmosphere` (lines 179-190): the desktop-wide iterator
starts at the window in focus. -/
def visible_windows (s : Atmosphere) : VisibleWindowIterator :=
  { vwi_cur := get_window_in_focus s }

/-- `Atmosphere::visible_subsurfaces` (lines 161-166): starts at `id`'s top
child. -/
def visible_subsurfaces (s : Atmosphere) (id : WindowId) : VisibleWindowIterator :=
  { vwi_cur := get_top_child s id }

/-- `Iterator::next for VisibleWindowIterator` (lines 196-204): return the
current window and advance the cursor to its `skiplist_next`. -/
def iter_next (s : Atmosphere) (it : VisibleWindowIterator) :
    Option WindowId × VisibleWindowIterator :=
  let ret := it.vwi_cur
  match ret with
  | some id => (ret, { vwi_cur := get_skiplist_next s id })
  | none => (ret, { vwi_cur := none })

/-- Run the iterator `fuel` times, collecting the yielded windows. -/
def iter_list (s : Atmosphere) (it : VisibleWindowIterator) : Nat → List WindowId
  | 0 => []
  | fuel + 1 =>
    match iter_next s it with
    | (some id, it') => id :: iter_list s it' fuel
    | (none, _) => []

/-- Advance the iterator `k` times, dropping the yields. -/
def iter_steps (s : Atmosphere) (it : VisibleWindowIterator) : Nat → VisibleWindowIterator
  | 0 => it
  | k + 1 => iter_steps s (iter_next s it).2 k

/-! Specification-side vocabulary used to state the claims: reciprocity and
acyclicity of the skiplist pointers, and the pointer maps induced by a
concrete chain of windows. -/

/-- Reciprocity (spec section 8): every non-null `next`/`prev` pointer has a
matching reciprocal entry. -/
def Recip (s : Atmosphere) : Prop :=
  ∀ a b : WindowId,
    (s.skiplist_next a = some b → s.skiplist_prev b = some a) ∧
    (s.skiplist_prev a = some b → s.skiplist_next b = some a)

/-- Reciprocity of every window except `i` (whose own pointers may be
stale). -/
def RecipExcept (s : Atmosphere) (i : WindowId) : Prop :=
  ∀ a b : WindowId, a ≠ i →
    (s.skiplist_next a = some b → s.skiplist_prev b = some a) ∧
    (s.skiplist_prev a = some b → s.skiplist_next b = some a)

/-- Follow `skiplist_next` for `k` steps from cursor `c`. -/
def iter_next_n (s : Atmosphere) : Nat → Option WindowId → Option WindowId
  | 0, c => c
  | k + 1, c =>
    iter_next_n s k (match c with
      | some id => s.skiplist_next id
      | none => none)

/-- Acyclicity (spec section 8): from any live window, following `next`
reaches `None` within at most (number of live windows) steps. -/
def AcyclicOn (live : List WindowId) (s : Atmosphere) : Prop :=
  ∀ w ∈ live, iter_next_n s live.length (some w) = none

instance (live : List WindowId) (s : Atmosphere) : Decidable (AcyclicOn live s) :=
  List.decidableBAll _ live

/-- The condition under which `focus_on (Some id)` with previous focus
`prev` takes the update path (`update_app = true` in the source): `id`'s
root window differs from `prev`, or `id` is itself a root window (its
`root_window` is unset) different from `prev`. -/
def changes_focus (s : Atmosphere) (prev id : WindowId) : Prop :=
  match s.root_window id with
  | some root => root ≠ prev
  | none => id ≠ prev

/-- The `next` map induced by the chain `[w1, ..., wk]`: each element points
at the one after it. -/
def chainNext : List Nat → Nat → Option Nat
  | [], _ => none
  | a :: rest, x => if x = a then rest.head? else chainNext rest x

/-- The `prev` map induced by a chain: each element points at the one before
it. -/
def chainPrev (l : List Nat) (x : Nat) : Option Nat :=
  chainNext l.reverse x

/-- The atmosphere whose skiplist holds exactly the chain `l` (all other
properties unset). -/
def chainState (l : List Nat) : Atmosphere :=
  { skiplist_next := chainNext l, skiplist_prev := chainPrev l }

/-- Insert `w` immediately before the first occurrence of `m`. -/
def insertBefore : List Nat → Nat → Nat → List Nat
  | [], _, _ => []
  | a :: rest, m, w =>
    if a = m then w :: a :: rest else a :: insertBefore rest m w

/-! Input grab handling, from `src/category5/input/mod.rs`. -/

def get_grabbed (s : Atmosphere) : Option WindowId := s.grabbed

def set_grabbed (s : Atmosphere) (v : Option WindowId) : Atmosphere :=
  { s with grabbed := v }

def get_resizing (s : Atmosphere) : Option WindowId := s.resizing

def set_resizing (s : Atmosphere) (v : Option WindowId) : Atmosphere :=
  { s with resizing := v }

/-- The write `ss.borrow_mut().ss_cur_tlstate.tl_resizing = b` on the surface
role state of window `id`. -/
def set_tl_resizing (s : Atmosphere) (id : WindowId) (b : Bool) : Atmosphere :=
  { s with tl_resizing := fun x => if x = id then b else s.tl_resizing x }

/-- Modelled from the spec: `get_root_win_in_focus` (missing accessor) — the
root window of the window in focus, or the focus itself when it is a root. -/
def get_root_win_in_focus (s : Atmosphere) : Option WindowId :=
  match get_win_focus s with
  | some w =>
    some (match get_root_window s w with
          | some r => r
          | none => w)
  | none => none

/-- `ButtonState` of a click (`input::ButtonState`). -/
inductive ButtonState where
  | Pressed
  | Released
  deriving DecidableEq, Repr

/-- `Click` input token (`c_code`, `c_state`). -/
structure Click where
  c_code : Nat
  c_state : ButtonState

/-- The geometry queries `handle_click_on_window` makes about the current
cursor position.  Cursor coordinates are floating point and out of scope;
the query results at the event's cursor position are taken as parameters,
which the grab-release rule must ignore. -/
structure HitOracle where
  /-- `find_window_with_input_at_point(cx, cy)` -/
  find_window_with_input_at_point : Option WindowId
  /-- `point_is_on_window_edge(id, x, y) != ResizeEdge::None` -/
  point_is_on_window_edge : WindowId → Bool
  /-- `point_is_on_titlebar(id, x, y)` -/
  point_is_on_titlebar : WindowId → Bool

/-- The resize-release branch of `handle_click_on_window` (lines 604-628). -/
def click_resize_release (s : Atmosphere) : Atmosphere :=
  match get_resizing s with
  | some id =>
    -- if let Some(surf) = get_surface_from_id(id), match s_role
    match s.role id with
    | some Role.xdg_shell_toplevel =>
      let s1 := set_resizing s none
      set_tl_resizing s1 id false
    | _ => s
  | none => s

/-- The per-window branch of `handle_click_on_window` (lines 629-716): focus
transfer, resize start, titlebar grab, or button delivery. -/
def click_on_surface (o : HitOracle) (s : Atmosphere) (c : Click) (id : WindowId) :
    Atmosphere :=
  -- If the surface's root window is not in focus, make it in focus
  let set_focus : Bool :=
    match get_root_win_in_focus s with
    | some focus =>
      let root := match get_root_window s id with
        | some root => root
        | none => id
      decide (root ≠ focus) && decide (c.c_state = ButtonState.Pressed)
    | none => true
  let s1 := if set_focus then focus_on s (some id) else s
  let edge := o.point_is_on_window_edge id
  if edge then
    match s1.role id with
    | some Role.xdg_shell_toplevel =>
      match c.c_state with
      | ButtonState.Pressed =>
        let s2 := set_resizing s1 (some id)
        set_tl_resizing s2 id true
      | ButtonState.Released => s1
    | _ => s1
  else if o.point_is_on_titlebar id then
    match c.c_state with
    | ButtonState.Pressed => set_grabbed s1 (some id)
    | ButtonState.Released => set_grabbed s1 none
  else if !set_focus then
    -- deliver the button event to the wayland client, if it has a seat
    if s1.has_seat id then
      { s1 with
        log := s1.log ++
          [Ev.button id c.c_code (c.c_state = ButtonState.Released)] }
    else s1
  else s1

/-- `Input::handle_click_on_window` (src/category5/input/mod.rs lines
585-717). -/
def handle_click_on_window (o : HitOracle) (s : Atmosphere) (c : Click) :
    Atmosphere :=
  -- first check if we are releasing a grab
  if (get_grabbed s).isSome ∧ c.c_state = ButtonState.Released then
    set_grabbed s none
  else
    let resizing := get_resizing s
    if resizing.isSome ∧ c.c_state = ButtonState.Released then
      click_resize_release s
    else
      match o.find_window_with_input_at_point with
      | some id => click_on_surface o s c id
      | none => s

end Category5

/-! The older compositor revision,
`compositor/src/category5/utils/atmosphere/skiplist.rs`. -/

namespace CompositorRev

open Category5 (WindowId Ev)

/-- Modelled from the spec: the compositor revision's property store.  This
revision keeps one global `focus` property instead of the win/surf split. -/
structure Atmosphere where
  skiplist_next : WindowId → Option WindowId := fun _ => none
  skiplist_prev : WindowId → Option WindowId := fun _ => none
  /-- global property `GlobalProperty::focus` -/
  focus : Option WindowId := none
  log : List Ev := []

def get_skiplist_next (s : Atmosphere) (id : WindowId) : Option WindowId :=
  s.skiplist_next id

def get_skiplist_prev (s : Atmosphere) (id : WindowId) : Option WindowId :=
  s.skiplist_prev id

def set_skiplist_next (s : Atmosphere) (id : WindowId) (v : Option WindowId) :
    Atmosphere :=
  { s with skiplist_next := Category5.upd s.skiplist_next id v }

def set_skiplist_prev (s : Atmosphere) (id : WindowId) (v : Option WindowId) :
    Atmosphere :=
  { s with skiplist_prev := Category5.upd s.skiplist_prev id v }

/-- `Atmosphere::get_window_in_focus` (compositor revision, lines 89-95). -/
def get_window_in_focus (s : Atmosphere) : Option WindowId := s.focus

/-- `set_global_prop(&GlobalProperty::focus(v))`. -/
def set_focus_prop (s : Atmosphere) (v : Option WindowId) : Atmosphere :=
  { s with focus := v }

def keyboard_enter (s : Atmosphere) (id : WindowId) : Atmosphere :=
  { s with log := s.log ++ [Ev.kbEnter id] }

def keyboard_leave (s : Atmosphere) (id : WindowId) : Atmosphere :=
  { s with log := s.log ++ [Ev.kbLeave id] }

/-- `Atmosphere::skiplist_remove_window` (compositor revision, lines 22-42):
like the current revision, but if the removed window was the focus, the focus
moves to its `next`. -/
def skiplist_remove_window (s : Atmosphere) (id : WindowId) : Atmosphere :=
  let next := get_skiplist_next s id
  let prev := get_skiplist_prev s id
  let s1 := match prev with
    | some p => set_skiplist_next s p next
    | none => s
  let s2 := match next with
    | some n => set_skiplist_prev s1 n prev
    | none => s1
  -- If this was the window in focus, set the focus to the next in order
  match get_window_in_focus s2 with
  | some f => if f = id then set_focus_prop s2 next else s2
  | none => s2

/-- `Atmosphere::focus_on` (compositor revision, lines 110-138). -/
def focus_on (s : Atmosphere) (win : Option WindowId) : Atmosphere :=
  let core :=
    match win with
    | some id =>
      let prev_focus := get_window_in_focus s
      -- If they clicked on the focused window, don't do anything
      match prev_focus with
      | some prev =>
        if prev = id then none
        else
          -- Send leave event(s) to the old focus
          let s1 := keyboard_leave s prev
          -- point the previous focus at the new focus
          let s2 := set_skiplist_prev s1 prev win
          -- Send enter event(s) to the new focus, after the leave events
          let s3 := keyboard_enter s2 id
          let s4 := skiplist_remove_window s3 id
          let s5 := set_skiplist_next s4 id prev_focus
          some (set_skiplist_prev s5 id none)
      | none =>
        let s3 := keyboard_enter s id
        let s4 := skiplist_remove_window s3 id
        let s5 := set_skiplist_next s4 id none
        some (set_skiplist_prev s5 id none)
    | none => some s
  -- the early return above skips the final focus write
  match core with
  | some s' => set_focus_prop s' win
  | none => s

end CompositorRev

/-! Id allocation and client registration,
`compositor/src/category5/ways/utils.rs`. -/

namespace Ways

open Category5 (WindowId ClientId)

/-- Modelled from the spec: the id allocator (missing from the sources; only
its callers are present).  Window ids and client ids are minted monotonically
from per-space counters, and the allocator records which space minted each
id, plus the set of registered window ids. -/
structure AllocState where
  next_window_id : Nat := 0
  next_client_id : Nat := 0
  /-- every id ever returned by `mint_window_id` -/
  windows_minted : List Nat := []
  /-- every id ever returned by `mint_client_id` -/
  clients_minted : List Nat := []
  /-- window ids registered with `add_window_id` -/
  window_ids : List Nat := []

/-- Modelled from the spec: `mint_window_id` returns a fresh id from the
window id space. -/
def mint_window_id (s : AllocState) : WindowId × AllocState :=
  (s.next_window_id,
   { s with
     next_window_id := s.next_window_id + 1
     windows_minted := s.next_window_id :: s.windows_minted })

/-- Modelled from the spec: `mint_client_id` returns a fresh id from the
client id space. -/
def mint_client_id (s : AllocState) : ClientId × AllocState :=
  (s.next_client_id,
   { s with
     next_client_id := s.next_client_id + 1
     clients_minted := s.next_client_id :: s.clients_minted })

/-- Modelled from the spec: `add_window_id` registers a window id with the
property store. -/
def add_window_id (s : AllocState) (id : WindowId) : AllocState :=
  { s with window_ids := id :: s.window_ids }

/-- `register_new_client` (compositor/src/category5/ways/utils.rs lines
25-50): mints a client id and registers it with `add_window_id`.  (The
wayland `data_map` bookkeeping and the disconnect destructor, which calls
`free_window_id` on the same id, are protocol plumbing and elided.) -/
def register_new_client (s : AllocState) : WindowId × AllocState :=
  -- make a new client id
  let (id, s1) := mint_client_id s
  -- Track this surface in the compositor state
  (id, add_window_id s1 id)

end Ways

/-! Concrete states used by counterexamples and witnesses. -/

namespace Category5

/-- A two-window list `[1, 2]`. -/
def twoChain : Atmosphere := chainState [1, 2]

/-- A three-window list `[1, 2, 3]`. -/
def threeChain : Atmosphere := chainState [1, 2, 3]

/-- A three-window list `[1, 2, 3]` with window 1 in focus. -/
def threeChainFocused : Atmosphere :=
  { chainState [1, 2, 3] with win_focus := some 1 }

/-- Root window 1 is focused; window 1 is itself a root
(`get_root_window 1 = None`). -/
def focusedRootState : Atmosphere :=
  { win_focus := some 1, surf_focus := some 1 }

/-- Root window 1 is focused and window 2 is a subsurface of it
(`get_root_window 2 = Some 1`). -/
def focusedSubsurfState : Atmosphere :=
  { win_focus := some 1
    root_window := fun x => if x = 2 then some 1 else none }

/-- Two root windows 7 and 8, with 7 focused. -/
def twoRootsState : Atmosphere := { win_focus := some 7 }

/-- Root 7 focused; window 1 is a root window and window 2 is a subsurface
whose root is window 3. -/
def mixedRootsState : Atmosphere :=
  { win_focus := some 7
    root_window := fun x => if x = 2 then some 3 else none }

/-- Compositor revision: window 1 in focus. -/
def compFocusState : CompositorRev.Atmosphere := { focus := some 1 }

/-- Compositor revision: window 7 in focus. -/
def compTwoRootsState : CompositorRev.Atmosphere := { focus := some 7 }

/-- A grabbed window 5, cursor over window 9, release click. -/
def grabbedState : Atmosphere :=
  { grabbed := some 5, win_focus := some 9 }

/-- A hit oracle reporting the cursor over window 9, on its titlebar. -/
def overNineOracle : HitOracle :=
  { find_window_with_input_at_point := some 9
    point_is_on_window_edge := fun _ => false
    point_is_on_titlebar := fun _ => true }

/-- The release click of button 272. -/
def releaseClick : Click := { c_code := 272, c_state := ButtonState.Released }

/-- End-to-end subsurface scenario (spec section 8): mint windows 1, 2, 3,
focus 1, add 2 and 3 as top subsurfaces of 1, then reorder. -/
def c7_s0 : Atmosphere := {}

def c7_s1 : Atmosphere := focus_on c7_s0 (some 1)

def c7_s2 : Atmosphere := add_new_top_subsurf c7_s1 1 2

def c7_s3 : Atmosphere := add_new_top_subsurf c7_s2 1 3

def c7_s4 : Atmosphere := skiplist_place_below c7_s3 2 3

def c7_s5 : Atmosphere := skiplist_place_above c7_s4 2 3

end Category5

open Category5

/-! Theorems settling the claims. -/

/-- C10: `focus_on(None)` clears both the window focus and the surface focus,
emits no enter or leave notification even when a previous focus existed, and
leaves every skiplist `next`/`prev` property unchanged. -/
theorem C10_focus_on_none_clears_both (s : Atmosphere) :
    focus_on s none = { s with win_focus := none, surf_focus := none } ∧
    (focus_on s none).log = s.log ∧
    (focus_on s none).skiplist_next = s.skiplist_next ∧
    (focus_on s none).skiplist_prev = s.skiplist_prev :=
  ⟨rfl, rfl, rfl, rfl⟩

/-- C4 counterexample: in the current revision, `focus_on(Some(1))` with
window 1 already the window focus (and a root window) is not a no-op: it
re-sends the keyboard enter notification for window 1. -/
theorem C4_counterexample_reenter :
    focusedRootState.win_focus = some 1 ∧
    (focus_on focusedRootState (some 1)).log = [Ev.kbEnter 1] ∧
    (focus_on focusedRootState (some 1)).log ≠ focusedRootState.log := by
  decide

/-- C4 amended: the compositor revision's `focus_on(Some(w))` is a strict
no-op when `w` is the window in focus; the current revision returns with the
state unchanged only when `w` is a subsurface whose root window equals the
current focus (when `w` is the focused root window itself it re-sets the
surface focus and re-sends the enter notification). -/
theorem C4_amended_noop_cases :
    (∀ (s : Atmosphere) (w p : WindowId),
        s.win_focus = some p → s.root_window w = some p →
        focus_on s (some w) = s) ∧
    (∀ (s : CompositorRev.Atmosphere) (w : WindowId),
        CompositorRev.get_window_in_focus s = some w →
        CompositorRev.focus_on s (some w) = s) := by
  constructor
  · intro s w p h1 h2
    simp [focus_on, get_win_focus, get_root_window, h1, h2]
  · intro s w h
    simp [CompositorRev.focus_on, CompositorRev.get_window_in_focus] at h ⊢
    simp [h]

/-- C4 witness: the no-op cases evaluated on concrete states. -/
theorem C4_amended_noop_cases_witness :
    focus_on focusedSubsurfState (some 2) = focusedSubsurfState ∧
    CompositorRev.focus_on compFocusState (some 1) = compFocusState :=
  ⟨C4_amended_noop_cases.1 focusedSubsurfState 2 1 rfl rfl,
   C4_amended_noop_cases.2 compFocusState 1 rfl⟩

/-- C2: the list `[1, 2, 3]` is acyclic, but the self-placement
`skiplist_place_above(2, 2)` sets `next(2) = Some(2)`: following `next` from
window 2 then never reaches `None`, so acyclicity is not preserved (the code
lacks the self-placement guard the spec requires). -/
theorem C2_self_placement_creates_cycle :
    AcyclicOn [1, 2, 3] threeChain ∧
    (skiplist_place_above threeChain 2 2).skiplist_next 2 = some 2 ∧
    iter_next_n (skiplist_place_above threeChain 2 2) 10 (some 2) = some 2 ∧
    ¬ AcyclicOn [1, 2, 3] (skiplist_place_above threeChain 2 2) := by
  decide

/-- C7 counterexample: at the end of the spec's subsurface scenario (focus 1,
add subsurfaces 2 and 3, `place_below(2,3)`, then `place_above(2,3)`),
`visible_subsurfaces(1)` yields window 3 first and in total `[3]`, not
`[2, 3]`. -/
theorem C7_counterexample_stale_top_child :
    (iter_next c7_s5 (visible_subsurfaces c7_s5 1)).1 = some 3 ∧
    iter_list c7_s5 (visible_subsurfaces c7_s5 1) 10 ≠ [2, 3] := by
  decide

/-- C7 amended: after the two subsurface additions `visible_subsurfaces(1)`
yields `[3, 2]`, after `skiplist_place_below(2, 3)` it still yields `[3, 2]`,
but after `skiplist_place_above(2, 3)` it yields `[3]`: `place_above` does
not update the parent's `top_child` root pointer, which still names window 3,
even though the underlying chain read from window 2 is `[2, 3]`. -/
theorem C7_amended_scenario :
    iter_list c7_s3 (visible_subsurfaces c7_s3 1) 10 = [3, 2] ∧
    iter_list c7_s4 (visible_subsurfaces c7_s4 1) 10 = [3, 2] ∧
    iter_list c7_s5 (visible_subsurfaces c7_s5 1) 10 = [3] ∧
    c7_s5.top_child 1 = some 3 ∧
    iter_list c7_s5 { vwi_cur := some 2 } 10 = [2, 3] := by
  decide

/-- C5: a button release while a grab is active clears the grab and does
nothing else, whatever the cursor is over. -/
theorem C5_release_clears_grab (o : HitOracle) (s : Atmosphere) (c : Click)
    (w : WindowId) (hg : s.grabbed = some w)
    (hc : c.c_state = ButtonState.Released) :
    handle_click_on_window o s c = { s with grabbed := none } := by
  simp [handle_click_on_window, get_grabbed, set_grabbed, hg, hc]

/-- C5 witness: releasing over window 9's titlebar while window 5 is grabbed
only clears the grab. -/
theorem C5_release_clears_grab_witness :
    grabbedState.grabbed = some 5 ∧
    releaseClick.c_state = ButtonState.Released ∧
    handle_click_on_window overNineOracle grabbedState releaseClick =
      { grabbedState with grabbed := none } :=
  ⟨rfl, rfl,
   C5_release_clears_grab overNineOracle grabbedState releaseClick 5 rfl rfl⟩

/-- Once the cursor is exhausted it stays exhausted. -/
theorem iter_steps_none (s : Atmosphere) (k : Nat) :
    iter_steps s { vwi_cur := none } k = { vwi_cur := none } := by
  induction k with
  | zero => rfl
  | succ k ih => simpa [iter_steps, iter_next] using ih

/-- C8: with global order `[a, b, c]` and `a` in focus, `visible_windows()`
yields exactly `a`, `b`, `c` in that order, and every call after the third
returns `None`. -/
theorem C8_iterator_terminates (s : Atmosphere) (a b c : WindowId)
    (hf : s.win_focus = some a)
    (hab : s.skiplist_next a = some b)
    (hbc : s.skiplist_next b = some c)
    (hcn : s.skiplist_next c = none) :
    (iter_next s (visible_windows s)).1 = some a ∧
    (iter_next s (iter_next s (visible_windows s)).2).1 = some b ∧
    (iter_next s (iter_next s (iter_next s (visible_windows s)).2).2).1 = some c ∧
    ∀ k, (iter_next s (iter_steps s
        (iter_next s (iter_next s (iter_next s (visible_windows s)).2).2).2 k)).1 =
      none := by
  have h0 : visible_windows s = { vwi_cur := some a } := by
    simp [visible_windows, get_window_in_focus, hf]
  rw [h0]
  have h3 : (iter_next s (iter_next s (iter_next s { vwi_cur := some a }).2).2).2 =
      { vwi_cur := none } := by
    simp [iter_next, get_skiplist_next, hab, hbc, hcn]
  refine ⟨by simp [iter_next], ?_, ?_, fun k => ?_⟩
  · simp [iter_next, get_skiplist_next, hab]
  · simp [iter_next, get_skiplist_next, hab, hbc]
  · rw [h3, iter_steps_none]
    simp [iter_next]

/-- C8 witness: the iterator on the concrete list `[1, 2, 3]` with window 1
focused. -/
theorem C8_iterator_terminates_witness :
    threeChainFocused.win_focus = some 1 ∧
    (iter_next threeChainFocused (visible_windows threeChainFocused)).1 = some 1 ∧
    (iter_next threeChainFocused
      (iter_next threeChainFocused (visible_windows threeChainFocused)).2).1 = some 2 ∧
    (iter_next threeChainFocused (iter_next threeChainFocused
      (iter_next threeChainFocused (visible_windows threeChainFocused)).2).2).1 = some 3 ∧
    (iter_next threeChainFocused (iter_steps threeChainFocused
      (iter_next threeChainFocused (iter_next threeChainFocused
        (iter_next threeChainFocused (visible_windows threeChainFocused)).2).2).2 5)).1 =
      none := by
  have h := C8_iterator_terminates threeChainFocused 1 2 3 rfl rfl rfl rfl
  exact ⟨rfl, h.1, h.2.1, h.2.2.1, h.2.2.2 5⟩

/-- The `next` map after removing a window with no predecessor. -/
theorem remove_next_none (s : Atmosphere) (i x : WindowId)
    (hp : s.skiplist_prev i = none) :
    (skiplist_remove_window s i).skiplist_next x = s.skiplist_next x := by
  cases hn : s.skiplist_next i <;>
    simp [skiplist_remove_window, get_skiplist_next, get_skiplist_prev, hp, hn,
      set_skiplist_next, set_skiplist_prev, upd]

/-- The `next` map after removing a window with predecessor `p`. -/
theorem remove_next_some (s : Atmosphere) (i x p : WindowId)
    (hp : s.skiplist_prev i = some p) :
    (skiplist_remove_window s i).skiplist_next x =
      if x = p then s.skiplist_next i else s.skiplist_next x := by
  cases hn : s.skiplist_next i <;>
    simp [skiplist_remove_window, get_skiplist_next, get_skiplist_prev, hp, hn,
      set_skiplist_next, set_skiplist_prev, upd]

/-- The `prev` map after removing a window with no successor. -/
theorem remove_prev_none (s : Atmosphere) (i x : WindowId)
    (hn : s.skiplist_next i = none) :
    (skiplist_remove_window s i).skiplist_prev x = s.skiplist_prev x := by
  cases hp : s.skiplist_prev i <;>
    simp [skiplist_remove_window, get_skiplist_next, get_skiplist_prev, hp, hn,
      set_skiplist_next, set_skiplist_prev, upd]

/-- The `prev` map after removing a window with successor `n`. -/
theorem remove_prev_some (s : Atmosphere) (i x n : WindowId)
    (hn : s.skiplist_next i = some n) :
    (skiplist_remove_window s i).skiplist_prev x =
      if x = n then s.skiplist_prev i else s.skiplist_prev x := by
  cases hp : s.skiplist_prev i <;>
    simp [skiplist_remove_window, get_skiplist_next, get_skiplist_prev, hp, hn,
      set_skiplist_next, set_skiplist_prev, upd]

/-- The `next` map after `skiplist_place_above` when the target had no
predecessor after the removal. -/
theorem place_above_next_none (s : Atmosphere) (i t x : WindowId)
    (hq : (skiplist_remove_window s i).skiplist_prev t = none) :
    (skiplist_place_above s i t).skiplist_next x =
      if x = i then some t
      else (skiplist_remove_window s i).skiplist_next x := by
  simp [skiplist_place_above, get_skiplist_next, get_skiplist_prev, hq,
    set_skiplist_next, set_skiplist_prev, upd]

/-- The `next` map after `skiplist_place_above` when the target had
predecessor `q` after the removal. -/
theorem place_above_next_some (s : Atmosphere) (i t x q : WindowId)
    (hq : (skiplist_remove_window s i).skiplist_prev t = some q) :
    (skiplist_place_above s i t).skiplist_next x =
      if x = i then some t
      else if x = q then some i
      else (skiplist_remove_window s i).skiplist_next x := by
  simp [skiplist_place_above, get_skiplist_next, get_skiplist_prev, hq,
    set_skiplist_next, set_skiplist_prev, upd]

/-- The `prev` map after `skiplist_place_above`. -/
theorem place_above_prev_eq (s : Atmosphere) (i t x : WindowId) :
    (skiplist_place_above s i t).skiplist_prev x =
      if x = i then (skiplist_remove_window s i).skiplist_prev t
      else if x = t then some i
      else (skiplist_remove_window s i).skiplist_prev x := by
  cases hq : (skiplist_remove_window s i).skiplist_prev t <;>
    simp [skiplist_place_above, get_skiplist_next, get_skiplist_prev, hq,
      set_skiplist_next, set_skiplist_prev, upd]

/-- On a reciprocal state, after removing `i` no other window points at
`i`. -/
theorem remove_no_ptr (s : Atmosphere) (i : WindowId) (hr : Recip s)
    (a : WindowId) (ha : a ≠ i) :
    (skiplist_remove_window s i).skiplist_next a ≠ some i ∧
    (skiplist_remove_window s i).skiplist_prev a ≠ some i := by
  constructor
  · cases hp : s.skiplist_prev i with
    | none =>
      rw [remove_next_none s i a hp]
      intro h
      have h1 := (hr a i).1 h
      rw [hp] at h1
      cases h1
    | some p =>
      rw [remove_next_some s i a p hp]
      by_cases hap : a = p
      · rw [if_pos hap]
        intro h
        have h1 := (hr i i).1 h
        rw [hp] at h1
        cases h1
        exact ha hap
      · rw [if_neg hap]
        intro h
        have h1 := (hr a i).1 h
        rw [hp] at h1
        cases h1
        exact hap rfl
  · cases hn : s.skiplist_next i with
    | none =>
      rw [remove_prev_none s i a hn]
      intro h
      have h1 := (hr a i).2 h
      rw [hn] at h1
      cases h1
    | some n =>
      rw [remove_prev_some s i a n hn]
      by_cases han : a = n
      · rw [if_pos han]
        intro h
        have h1 := (hr i i).2 h
        rw [hn] at h1
        cases h1
        exact ha han
      · rw [if_neg han]
        intro h
        have h1 := (hr a i).2 h
        rw [hn] at h1
        cases h1
        exact han rfl

/-- Removal preserves reciprocity for every window other than the removed
one (whose stale pointers may dangle). -/
theorem remove_recip_except (s : Atmosphere) (i : WindowId) (hr : Recip s) :
    RecipExcept (skiplist_remove_window s i) i := by
  intro a b ha
  have nextStep : ∀ c : WindowId, s.skiplist_next a = some c →
      (skiplist_remove_window s i).skiplist_prev c = some a := by
    intro c hc
    have h1 := (hr a c).1 hc
    cases hn : s.skiplist_next i with
    | none => rw [remove_prev_none s i c hn]; exact h1
    | some n =>
      rw [remove_prev_some s i c n hn]
      by_cases hcn : c = n
      · exfalso
        have h2 := (hr i n).1 hn
        rw [hcn] at h1
        rw [h1] at h2
        cases h2
        exact ha rfl
      · rw [if_neg hcn]
        exact h1
  have prevStep : ∀ c : WindowId, s.skiplist_prev a = some c →
      (skiplist_remove_window s i).skiplist_next c = some a := by
    intro c hc
    have h1 := (hr a c).2 hc
    cases hp : s.skiplist_prev i with
    | none => rw [remove_next_none s i c hp]; exact h1
    | some p =>
      rw [remove_next_some s i c p hp]
      by_cases hcp : c = p
      · exfalso
        have h2 := (hr i p).2 hp
        rw [hcp] at h1
        rw [h1] at h2
        cases h2
        exact ha rfl
      · rw [if_neg hcp]
        exact h1
  constructor
  · intro h
    cases hp : s.skiplist_prev i with
    | none =>
      rw [remove_next_none s i a hp] at h
      exact nextStep b h
    | some p =>
      rw [remove_next_some s i a p hp] at h
      by_cases hap : a = p
      · rw [if_pos hap] at h
        rw [remove_prev_some s i b b h, if_pos rfl, hp, hap]
      · rw [if_neg hap] at h
        exact nextStep b h
  · intro h
    cases hn : s.skiplist_next i with
    | none =>
      rw [remove_prev_none s i a hn] at h
      exact prevStep b h
    | some n =>
      rw [remove_prev_some s i a n hn] at h
      by_cases han : a = n
      · rw [if_pos han] at h
        rw [remove_next_some s i b b h, if_pos rfl, hn, han]
      · rw [if_neg han] at h
        exact prevStep b h

/-- `skiplist_place_above` with `id ≠ target` restores full reciprocity. -/
theorem place_above_recip (s : Atmosphere) (i t : WindowId) (hit : i ≠ t)
    (hr : Recip s) : Recip (skiplist_place_above s i t) := by
  have hre := remove_recip_except s i hr
  have hnp := remove_no_ptr s i hr
  intro a b
  constructor
  · intro h
    rw [place_above_prev_eq]
    by_cases hai : a = i
    · cases hq : (skiplist_remove_window s i).skiplist_prev t with
      | none =>
        rw [place_above_next_none s i t a hq, if_pos hai] at h
        cases h
        rw [if_neg (fun hh => hit hh.symm), if_pos rfl, hai]
      | some q =>
        rw [place_above_next_some s i t a q hq, if_pos hai] at h
        cases h
        rw [if_neg (fun hh => hit hh.symm), if_pos rfl, hai]
    · cases hq : (skiplist_remove_window s i).skiplist_prev t with
      | none =>
        rw [place_above_next_none s i t a hq, if_neg hai] at h
        have h1 := (hre a b hai).1 h
        have hbi : b ≠ i := by
          rintro rfl
          exact (hnp a hai).1 h
        have hbt : b ≠ t := by
          rintro rfl
          rw [hq] at h1
          cases h1
        rw [if_neg hbi, if_neg hbt]
        exact h1
      | some q =>
        rw [place_above_next_some s i t a q hq, if_neg hai] at h
        by_cases haq : a = q
        · rw [if_pos haq] at h
          cases h
          rw [if_pos rfl, haq]
        · rw [if_neg haq] at h
          have h1 := (hre a b hai).1 h
          have hbi : b ≠ i := by
            rintro rfl
            exact (hnp a hai).1 h
          have hbt : b ≠ t := by
            rintro rfl
            rw [hq] at h1
            cases h1
            exact haq rfl
          rw [if_neg hbi, if_neg hbt]
          exact h1
  · intro h
    rw [place_above_prev_eq] at h
    by_cases hai : a = i
    · rw [if_pos hai] at h
      have hbi : b ≠ i := by
        rintro rfl
        exact (hnp t (Ne.symm hit)).2 h
      rw [place_above_next_some s i t b b h, if_neg hbi, if_pos rfl, hai]
    · rw [if_neg hai] at h
      by_cases hat : a = t
      · rw [if_pos hat] at h
        cases h
        cases hq : (skiplist_remove_window s i).skiplist_prev t with
        | none => rw [place_above_next_none s i t i hq, if_pos rfl, hat]
        | some q => rw [place_above_next_some s i t i q hq, if_pos rfl, hat]
      · rw [if_neg hat] at h
        have h1 := (hre a b hai).2 h
        have hbi : b ≠ i := by
          rintro rfl
          exact (hnp a hai).2 h
        cases hq : (skiplist_remove_window s i).skiplist_prev t with
        | none =>
          rw [place_above_next_none s i t b hq, if_neg hbi]
          exact h1
        | some q =>
          rw [place_above_next_some s i t b q hq, if_neg hbi]
          by_cases hbq : b = q
          · exfalso
            have h2 := (hre t q (Ne.symm hit)).2 hq
            rw [hbq] at h1
            rw [h1] at h2
            cases h2
            exact hat rfl
          · rw [if_neg hbq]
            exact h1

/-- Swap the two skiplist pointer maps. -/
def mirror (s : Atmosphere) : Atmosphere :=
  { s with
    skiplist_next := s.skiplist_prev
    skiplist_prev := s.skiplist_next }

/-- Removal commutes with mirroring. -/
theorem mirror_remove (s : Atmosphere) (i : WindowId) :
    skiplist_remove_window (mirror s) i = mirror (skiplist_remove_window s i) := by
  cases hp : s.skiplist_prev i <;> cases hn : s.skiplist_next i <;>
    simp [skiplist_remove_window, mirror, get_skiplist_next, get_skiplist_prev,
      hp, hn, set_skiplist_next, set_skiplist_prev]

/-- `skiplist_place_below` is the mirror image of `skiplist_place_above`. -/
theorem place_below_eq (s : Atmosphere) (i t : WindowId) :
    skiplist_place_below s i t = mirror (skiplist_place_above (mirror s) i t) := by
  unfold skiplist_place_below skiplist_place_above
  rw [mirror_remove]
  cases hq : (skiplist_remove_window s i).skiplist_next t <;>
    simp [get_skiplist_next, get_skiplist_prev, set_skiplist_next,
      set_skiplist_prev, mirror, hq]

/-- Reciprocity is invariant under mirroring. -/
theorem recip_mirror (s : Atmosphere) (hr : Recip s) : Recip (mirror s) :=
  fun a b => ⟨(hr a b).2, (hr a b).1⟩

/-- `skiplist_place_below` with `id ≠ target` restores full reciprocity. -/
theorem place_below_recip (s : Atmosphere) (i t : WindowId) (hit : i ≠ t)
    (hr : Recip s) : Recip (skiplist_place_below s i t) := by
  rw [place_below_eq]
  exact recip_mirror _ (place_above_recip (mirror s) i t hit (recip_mirror s hr))

/-- The two-window chain `[1, 2]` is reciprocal. -/
theorem recip_twoChain : Recip twoChain := by
  intro a b
  constructor <;> intro h
  · by_cases ha1 : a = 1
    · subst ha1
      simp [twoChain, chainState, chainNext] at h
      subst h
      decide
    · by_cases ha2 : a = 2
      · subst ha2
        simp [twoChain, chainState, chainNext, ha1] at h
      · simp [twoChain, chainState, chainNext, ha1, ha2] at h
  · by_cases ha2 : a = 2
    · subst ha2
      simp [twoChain, chainState, chainPrev, chainNext] at h
      subst h
      decide
    · by_cases ha1 : a = 1
      · subst ha1
        simp [twoChain, chainState, chainPrev, chainNext, ha2] at h
      · simp [twoChain, chainState, chainPrev, chainNext, ha1, ha2] at h

/-- C1 counterexample: on the reciprocal list `[1, 2]`,
`skiplist_remove_window(2)` leaves the removed window's stale
`prev(2) = Some(1)` while `next(1)` has become `None`, so reciprocity over
all windows does not survive the operation. -/
theorem C1_counterexample_stale_remove :
    Recip twoChain ∧
    (skiplist_remove_window twoChain 2).skiplist_prev 2 = some 1 ∧
    (skiplist_remove_window twoChain 2).skiplist_next 1 = none ∧
    ¬ Recip (skiplist_remove_window twoChain 2) := by
  refine ⟨recip_twoChain, by decide, by decide, fun hr => ?_⟩
  exact absurd ((hr 2 1).2 (by decide)) (by decide)

/-- C1 amended: on any reciprocal state, `skiplist_place_above` and
`skiplist_place_below` with `id ≠ target` restore reciprocity over all
windows, and `skiplist_remove_window(id)` restores it for every window
other than `id` itself, whose stale pointers may lack reciprocal
entries. -/
theorem C1_amended_reciprocity (s : Atmosphere) (i t : WindowId)
    (hit : i ≠ t) (hr : Recip s) :
    RecipExcept (skiplist_remove_window s i) i ∧
    Recip (skiplist_place_above s i t) ∧
    Recip (skiplist_place_below s i t) :=
  ⟨remove_recip_except s i hr, place_above_recip s i t hit hr,
   place_below_recip s i t hit hr⟩

/-- C1 witness: the amended invariants on the concrete list `[1, 2]` with
window 3 as the moved window. -/
theorem C1_amended_reciprocity_witness :
    RecipExcept (skiplist_remove_window twoChain 3) 3 ∧
    Recip (skiplist_place_above twoChain 3 1) ∧
    Recip (skiplist_place_below twoChain 3 1) :=
  C1_amended_reciprocity twoChain 3 1 (by decide) recip_twoChain

/-- Removal does not touch the log, the window focus, or the root-window
map. -/
theorem skiplist_remove_window_aux (s : Atmosphere) (i : WindowId) :
    (skiplist_remove_window s i).log = s.log ∧
    (skiplist_remove_window s i).win_focus = s.win_focus ∧
    (skiplist_remove_window s i).root_window = s.root_window := by
  cases hp : get_skiplist_prev s i <;> cases hn : get_skiplist_next s i <;>
    simp [skiplist_remove_window, hp, hn, set_skiplist_next, set_skiplist_prev]

/-- One focus change in the current revision: leave for the previous focus,
then enter for the new one, and the window focus moves. -/
theorem focus_on_root_change (s : Atmosphere) (A P : WindowId)
    (hf : s.win_focus = some P) (hr : s.root_window A = none) (hne : P ≠ A) :
    (focus_on s (some A)).log = s.log ++ [Ev.kbLeave P, Ev.kbEnter A] ∧
    (focus_on s (some A)).win_focus = some A ∧
    (focus_on s (some A)).root_window = s.root_window := by
  simp [focus_on, get_win_focus, get_root_window, hf, hr, hne,
    focus_on_update, focus_on_tail, keyboard_enter, keyboard_leave,
    set_win_focus, set_surf_focus, set_skiplist_prev, set_skiplist_next,
    skiplist_remove_window_aux]

/-- One focus change in the current revision onto a subsurface whose root
window differs from the previous focus: leave for the previous focus, then
enter for the new one, and the window focus moves. -/
theorem focus_on_subsurf_change (s : Atmosphere) (A P r : WindowId)
    (hf : s.win_focus = some P) (hr : s.root_window A = some r)
    (hne : r ≠ P) :
    (focus_on s (some A)).log = s.log ++ [Ev.kbLeave P, Ev.kbEnter A] ∧
    (focus_on s (some A)).win_focus = some A ∧
    (focus_on s (some A)).root_window = s.root_window := by
  simp [focus_on, get_win_focus, get_root_window, hf, hr, hne,
    focus_on_update, focus_on_tail, keyboard_enter, keyboard_leave,
    set_win_focus, set_surf_focus, set_skiplist_prev, set_skiplist_next,
    skiplist_remove_window_aux]

/-- One focus change in the current revision, for every window that changes
focus — a root window different from the previous focus, or a subsurface
whose root differs from it. -/
theorem focus_on_changes (s : Atmosphere) (A P : WindowId)
    (hf : s.win_focus = some P) (hc : changes_focus s P A) :
    (focus_on s (some A)).log = s.log ++ [Ev.kbLeave P, Ev.kbEnter A] ∧
    (focus_on s (some A)).win_focus = some A ∧
    (focus_on s (some A)).root_window = s.root_window := by
  cases hr : s.root_window A with
  | none =>
    have hne : A ≠ P := by simpa [changes_focus, hr] using hc
    exact focus_on_root_change s A P hf hr (Ne.symm hne)
  | some r =>
    have hne : r ≠ P := by simpa [changes_focus, hr] using hc
    exact focus_on_subsurf_change s A P r hf hr hne

/-- Removal in the compositor revision does not touch the log. -/
theorem comp_remove_log (s : CompositorRev.Atmosphere) (i : Category5.WindowId) :
    (CompositorRev.skiplist_remove_window s i).log = s.log := by
  cases hp : CompositorRev.get_skiplist_prev s i <;>
    cases hn : CompositorRev.get_skiplist_next s i <;>
    cases hf : s.focus <;>
    simp [CompositorRev.skiplist_remove_window, hp, hn, hf,
      CompositorRev.set_skiplist_next, CompositorRev.set_skiplist_prev,
      CompositorRev.get_window_in_focus, CompositorRev.set_focus_prop] <;>
    split <;> simp

/-- One focus change in the compositor revision: leave for the previous
focus, then enter for the new one, and the focus property moves. -/
theorem comp_focus_on_change (s : CompositorRev.Atmosphere) (A P : Category5.WindowId)
    (hf : s.focus = some P) (hne : P ≠ A) :
    (CompositorRev.focus_on s (some A)).log =
      s.log ++ [Ev.kbLeave P, Ev.kbEnter A] ∧
    (CompositorRev.focus_on s (some A)).focus = some A := by
  simp [CompositorRev.focus_on, CompositorRev.get_window_in_focus, hf, hne,
    CompositorRev.keyboard_enter, CompositorRev.keyboard_leave,
    CompositorRev.set_skiplist_next, CompositorRev.set_skiplist_prev,
    CompositorRev.set_focus_prop, comp_remove_log]

/-- C3: for `focus_on(Some(A))` then `focus_on(Some(B))` with both calls
changing focus — `A` and `B` may each be a root window or a subsurface, as
long as the source's `update_app` condition holds for each call — the leave
for `A` lands in the log strictly before the enter for `B`: in both
revisions the appended events per call are `[leave prev, enter new]`, so
the combined log ends with `[leave P, enter A, leave A, enter B]`. -/
theorem C3_leave_before_enter :
    (∀ (s : Atmosphere) (P A B : WindowId),
        s.win_focus = some P →
        changes_focus s P A → changes_focus s A B →
        (focus_on (focus_on s (some A)) (some B)).log =
          s.log ++ [Ev.kbLeave P, Ev.kbEnter A, Ev.kbLeave A, Ev.kbEnter B]) ∧
    (∀ (s : CompositorRev.Atmosphere) (P A B : WindowId),
        s.focus = some P → P ≠ A → A ≠ B →
        (CompositorRev.focus_on (CompositorRev.focus_on s (some A)) (some B)).log =
          s.log ++ [Ev.kbLeave P, Ev.kbEnter A, Ev.kbLeave A, Ev.kbEnter B]) := by
  constructor
  · intro s P A B hf hcA hcB
    obtain ⟨l1, f1, r1⟩ := focus_on_changes s A P hf hcA
    have hcB' : changes_focus (focus_on s (some A)) A B := by
      unfold changes_focus at hcB ⊢
      rw [r1]
      exact hcB
    obtain ⟨l2, _, _⟩ := focus_on_changes (focus_on s (some A)) B A f1 hcB'
    rw [l2, l1]
    simp
  · intro s P A B hf hPA hAB
    obtain ⟨l1, f1⟩ := comp_focus_on_change s A P hf hPA
    obtain ⟨l2, _⟩ :=
      comp_focus_on_change (CompositorRev.focus_on s (some A)) B A f1 hAB
    rw [l2, l1]
    simp

/-- C3 witness: after focus 7, first focus the root window 1, then the
subsurface 2 whose root is window 3; and the compositor revision on two
root windows. -/
theorem C3_leave_before_enter_witness :
    (focus_on (focus_on mixedRootsState (some 1)) (some 2)).log =
      [Ev.kbLeave 7, Ev.kbEnter 1, Ev.kbLeave 1, Ev.kbEnter 2] ∧
    (CompositorRev.focus_on
        (CompositorRev.focus_on compTwoRootsState (some 1)) (some 2)).log =
      [Ev.kbLeave 7, Ev.kbEnter 1, Ev.kbLeave 1, Ev.kbEnter 2] := by
  have h1 := C3_leave_before_enter.1 mixedRootsState 7 1 2 rfl
    (by simp [changes_focus, mixedRootsState])
    (by simp [changes_focus, mixedRootsState])
  have h2 := C3_leave_before_enter.2 compTwoRootsState 7 1 2 rfl
    (by decide) (by decide)
  exact ⟨by simpa using h1, by simpa using h2⟩

/-! Pure list lemmas about the pointer maps induced by a chain. -/

theorem chainNext_not_mem (l : List Nat) (x : Nat) (hx : x ∉ l) :
    chainNext l x = none := by
  induction l with
  | nil => rfl
  | cons a rest ih =>
    simp only [chainNext]
    rw [if_neg (fun h : x = a => hx (h ▸ List.mem_cons_self a rest))]
    exact ih (fun h => hx (List.mem_cons_of_mem a h))

theorem chainNext_append_not_mem (l₁ l₂ : List Nat) (x : Nat) (hx : x ∉ l₁) :
    chainNext (l₁ ++ l₂) x = chainNext l₂ x := by
  induction l₁ with
  | nil => rfl
  | cons a rest ih =>
    simp only [List.cons_append, chainNext]
    rw [if_neg (fun h : x = a => hx (h ▸ List.mem_cons_self a rest))]
    exact ih (fun h => hx (List.mem_cons_of_mem a h))

theorem chainNext_append_mem_some (l₁ l₂ : List Nat) (x y : Nat) (hx : x ∈ l₁)
    (hy : chainNext l₁ x = some y) : chainNext (l₁ ++ l₂) x = some y := by
  induction l₁ with
  | nil => cases hx
  | cons a rest ih =>
    simp only [chainNext] at hy
    simp only [List.cons_append, chainNext]
    by_cases hxa : x = a
    · rw [if_pos hxa] at hy ⊢
      cases rest with
      | nil => cases hy
      | cons b rest' => simpa using hy
    · rw [if_neg hxa] at hy ⊢
      exact ih ((List.mem_cons.mp hx).resolve_left hxa) hy

theorem chainNext_append_mem_none (l₁ l₂ : List Nat) (x : Nat) (hx : x ∈ l₁)
    (hy : chainNext l₁ x = none) : chainNext (l₁ ++ l₂) x = l₂.head? := by
  induction l₁ with
  | nil => cases hx
  | cons a rest ih =>
    simp only [chainNext] at hy
    simp only [List.cons_append, chainNext]
    by_cases hxa : x = a
    · rw [if_pos hxa] at hy ⊢
      cases rest with
      | nil => rfl
      | cons b rest' => cases hy
    · rw [if_neg hxa] at hy ⊢
      exact ih ((List.mem_cons.mp hx).resolve_left hxa) hy

theorem chainNext_getLast_none (l : List Nat) (x : Nat) (hl : l.getLast? = some x)
    (hnd : l.Nodup) : chainNext l x = none := by
  induction l with
  | nil => cases hl
  | cons a rest ih =>
    cases rest with
    | nil =>
      simp only [chainNext]
      cases hl
      simp
    | cons b rest' =>
      rw [List.getLast?_cons_cons] at hl
      have hmem : x ∈ b :: rest' := List.mem_of_mem_getLast? hl
      have hna : a ∉ b :: rest' := (List.nodup_cons.mp hnd).1
      simp only [chainNext]
      rw [if_neg (fun h : x = a => hna (h ▸ hmem))]
      exact ih hl (List.nodup_cons.mp hnd).2

theorem chainNext_none_getLast (l : List Nat) (x : Nat) (hx : x ∈ l)
    (h : chainNext l x = none) : l.getLast? = some x := by
  induction l with
  | nil => cases hx
  | cons a rest ih =>
    simp only [chainNext] at h
    by_cases hxa : x = a
    · rw [if_pos hxa] at h
      cases rest with
      | nil => simpa using hxa.symm
      | cons b rest' => cases h
    · rw [if_neg hxa] at h
      have hxr : x ∈ rest := (List.mem_cons.mp hx).resolve_left hxa
      cases rest with
      | nil => cases hxr
      | cons b rest' =>
        rw [List.getLast?_cons_cons]
        exact ih hxr h

/-- The `next` pointer of the distinguished member of `l₁ ++ w :: l₂`. -/
theorem chain_w_next (A B : List Nat) (w : Nat) (hw : w ∉ A) :
    chainNext (A ++ w :: B) w = B.head? := by
  rw [chainNext_append_not_mem _ _ _ hw]
  simp [chainNext]

/-- The `prev` pointer of the distinguished member of `l₁ ++ w :: l₂`. -/
theorem chain_w_prev (A B : List Nat) (w : Nat) (hw : w ∉ B) :
    chainPrev (A ++ w :: B) w = A.getLast? := by
  unfold chainPrev
  have hrev : (A ++ w :: B).reverse = B.reverse ++ w :: A.reverse := by simp
  rw [hrev, chainNext_append_not_mem _ _ _ (fun h => hw (List.mem_reverse.mp h))]
  simp [chainNext, List.head?_reverse]

/-- The element spliced in immediately before `m` has `prev` pointing at
`w`. -/
theorem chainPrev_mid (C D : List Nat) (w m : Nat) (hmD : m ∉ D) :
    chainPrev (C ++ w :: m :: D) m = some w := by
  unfold chainPrev
  have hrev : (C ++ w :: m :: D).reverse = D.reverse ++ m :: w :: C.reverse := by
    simp
  rw [hrev, chainNext_append_not_mem _ _ _ (fun h => hmD (List.mem_reverse.mp h))]
  simp [chainNext]

/-- Splicing `w` in before `m` does not change any other element's `prev`. -/
theorem chainPrev_skip (C D : List Nat) (w m x : Nat) (hxw : x ≠ w)
    (hxm : x ≠ m) :
    chainPrev (C ++ w :: m :: D) x = chainPrev (C ++ m :: D) x := by
  unfold chainPrev
  have h1 : (C ++ w :: m :: D).reverse = D.reverse ++ m :: w :: C.reverse := by
    simp
  have h2 : (C ++ m :: D).reverse = D.reverse ++ m :: C.reverse := by simp
  rw [h1, h2]
  by_cases hxD : x ∈ D.reverse
  · cases hc : chainNext D.reverse x with
    | some y =>
      rw [chainNext_append_mem_some _ _ _ y hxD hc,
        chainNext_append_mem_some _ _ _ y hxD hc]
    | none =>
      rw [chainNext_append_mem_none _ _ _ hxD hc,
        chainNext_append_mem_none _ _ _ hxD hc]
      rfl
  · rw [chainNext_append_not_mem _ _ _ hxD, chainNext_append_not_mem _ _ _ hxD]
    simp [chainNext, hxm, hxw]

/-- `insertBefore` on an explicit decomposition. -/
theorem insertBefore_eq (C D : List Nat) (m w : Nat) (hm : m ∉ C) :
    insertBefore (C ++ m :: D) m w = C ++ w :: m :: D := by
  induction C with
  | nil => simp [insertBefore]
  | cons a rest ih =>
    simp only [List.cons_append, insertBefore]
    rw [if_neg (fun h : a = m => hm (h ▸ List.mem_cons_self a rest))]
    simp only [List.append_eq]
    rw [ih (fun h => hm (List.mem_cons_of_mem a h))]

/-- Mirroring a chain state reverses the chain. -/
theorem mirror_chainState (l : List Nat) :
    mirror (chainState l) = chainState l.reverse := by
  have h : chainPrev l.reverse = chainNext l := by
    funext x
    simp [chainPrev, List.reverse_reverse]
  unfold mirror chainState
  rw [h]
  rfl

/-- Removing `w` from the chain `A ++ w :: B` yields the `next` map of
`A ++ B` at every other window. -/
theorem chain_remove_next (A B : List Nat) (w x : Nat)
    (hnd : (A ++ w :: B).Nodup) (hx : x ≠ w) :
    (skiplist_remove_window (chainState (A ++ w :: B)) w).skiplist_next x =
      chainNext (A ++ B) x := by
  obtain ⟨hA, hwB_nodup, hdisj⟩ := List.nodup_append.mp hnd
  have hwA : w ∉ A := fun h => hdisj h (List.mem_cons_self w B)
  have hwB : w ∉ B := (List.nodup_cons.mp hwB_nodup).1
  have hprev : (chainState (A ++ w :: B)).skiplist_prev w = A.getLast? :=
    chain_w_prev A B w hwB
  have hnext : (chainState (A ++ w :: B)).skiplist_next w = B.head? :=
    chain_w_next A B w hwA
  cases hAg : A.getLast? with
  | none =>
    have hAnil : A = [] := List.getLast?_eq_none_iff.mp hAg
    rw [remove_next_none _ _ _ (by rw [hprev, hAg])]
    subst hAnil
    show chainNext ([] ++ w :: B) x = chainNext ([] ++ B) x
    simp [chainNext, hx]
  | some p₀ =>
    rw [remove_next_some _ _ _ p₀ (by rw [hprev, hAg])]
    by_cases hxp : x = p₀
    · rw [if_pos hxp, hnext, hxp]
      have hp₀A : p₀ ∈ A := List.mem_of_mem_getLast? hAg
      have hcA : chainNext A p₀ = none := chainNext_getLast_none A p₀ hAg hA
      rw [chainNext_append_mem_none A B p₀ hp₀A hcA]
    · rw [if_neg hxp]
      show chainNext (A ++ w :: B) x = chainNext (A ++ B) x
      by_cases hxA : x ∈ A
      · cases hcx : chainNext A x with
        | none =>
          exfalso
          have hg := chainNext_none_getLast A x hxA hcx
          rw [hAg] at hg
          exact hxp (Option.some.inj hg).symm
        | some y =>
          rw [chainNext_append_mem_some A _ x y hxA hcx,
            chainNext_append_mem_some A B x y hxA hcx]
      · rw [chainNext_append_not_mem A _ x hxA, chainNext_append_not_mem A B x hxA]
        simp [chainNext, hx]

/-- Removing `w` from the chain `A ++ w :: B` yields the `prev` map of
`A ++ B` at every other window. -/
theorem chain_remove_prev (A B : List Nat) (w x : Nat)
    (hnd : (A ++ w :: B).Nodup) (hx : x ≠ w) :
    (skiplist_remove_window (chainState (A ++ w :: B)) w).skiplist_prev x =
      chainPrev (A ++ B) x := by
  have h1 : (A ++ w :: B).reverse = B.reverse ++ w :: A.reverse := by simp
  have hnd' : (B.reverse ++ w :: A.reverse).Nodup := by
    rw [← h1]
    exact List.nodup_reverse.mpr hnd
  have key : (skiplist_remove_window (chainState (A ++ w :: B)) w).skiplist_prev x =
      (skiplist_remove_window (chainState (B.reverse ++ w :: A.reverse)) w).skiplist_next x := by
    rw [← h1, ← mirror_chainState, mirror_remove]
    rfl
  rw [key, chain_remove_next _ _ _ _ hnd' hx]
  unfold chainPrev
  congr 1
  simp

/-- The removed window's own `next` pointer is left stale. -/
theorem chain_remove_stale_next (A B : List Nat) (w : Nat)
    (hnd : (A ++ w :: B).Nodup) :
    (skiplist_remove_window (chainState (A ++ w :: B)) w).skiplist_next w =
      B.head? := by
  obtain ⟨hA, hwB_nodup, hdisj⟩ := List.nodup_append.mp hnd
  have hwA : w ∉ A := fun h => hdisj h (List.mem_cons_self w B)
  have hwB : w ∉ B := (List.nodup_cons.mp hwB_nodup).1
  have hprev : (chainState (A ++ w :: B)).skiplist_prev w = A.getLast? :=
    chain_w_prev A B w hwB
  have hnext : (chainState (A ++ w :: B)).skiplist_next w = B.head? :=
    chain_w_next A B w hwA
  cases hAg : A.getLast? with
  | none => rw [remove_next_none _ _ _ (by rw [hprev, hAg]), hnext]
  | some p₀ =>
    rw [remove_next_some _ _ _ p₀ (by rw [hprev, hAg])]
    have hp₀A : p₀ ∈ A := List.mem_of_mem_getLast? hAg
    rw [if_neg (fun h : w = p₀ => hwA (h ▸ hp₀A)), hnext]

/-- The removed window's own `prev` pointer is left stale. -/
theorem chain_remove_stale_prev (A B : List Nat) (w : Nat)
    (hnd : (A ++ w :: B).Nodup) :
    (skiplist_remove_window (chainState (A ++ w :: B)) w).skiplist_prev w =
      A.getLast? := by
  obtain ⟨hA, hwB_nodup, hdisj⟩ := List.nodup_append.mp hnd
  have hwA : w ∉ A := fun h => hdisj h (List.mem_cons_self w B)
  have hwB : w ∉ B := (List.nodup_cons.mp hwB_nodup).1
  have hprev : (chainState (A ++ w :: B)).skiplist_prev w = A.getLast? :=
    chain_w_prev A B w hwB
  have hnext : (chainState (A ++ w :: B)).skiplist_next w = B.head? :=
    chain_w_next A B w hwA
  cases hBh : B.head? with
  | none => rw [remove_prev_none _ _ _ (by rw [hnext, hBh]), hprev]
  | some n₀ =>
    have hn₀B : n₀ ∈ B := by
      cases B with
      | nil => cases hBh
      | cons b B' =>
        rw [List.head?_cons] at hBh
        cases hBh
        exact List.mem_cons_self _ _
    rw [remove_prev_some _ _ _ n₀ (by rw [hnext, hBh])]
    rw [if_neg (fun h : w = n₀ => hwB (h ▸ hn₀B)), hprev]

/-- After one removal the stale `prev` pointer of the removed window is the
original one. -/
theorem remove_stale_prev_eq (s : Atmosphere) (w : Nat)
    (hn : s.skiplist_next w ≠ some w) :
    (skiplist_remove_window s w).skiplist_prev w = s.skiplist_prev w := by
  cases hn' : s.skiplist_next w with
  | none => rw [remove_prev_none _ _ _ hn']
  | some n₀ =>
    rw [remove_prev_some _ _ _ n₀ hn']
    rw [if_neg (fun h : w = n₀ => hn (by rw [hn', ← h]))]

/-- After one removal the stale `next` pointer of the removed window is the
original one. -/
theorem remove_stale_next_eq (s : Atmosphere) (w : Nat)
    (hp : s.skiplist_prev w ≠ some w) :
    (skiplist_remove_window s w).skiplist_next w = s.skiplist_next w := by
  cases hp' : s.skiplist_prev w with
  | none => rw [remove_next_none _ _ _ hp']
  | some p₀ =>
    rw [remove_next_some _ _ _ p₀ hp']
    rw [if_neg (fun h : w = p₀ => hp (by rw [hp', ← h]))]

/-- Removing twice is a pointwise no-op on the `next` map (idempotent
remove). -/
theorem remove_idem_next (s : Atmosphere) (w x : Nat)
    (hp : s.skiplist_prev w ≠ some w) (hn : s.skiplist_next w ≠ some w) :
    (skiplist_remove_window (skiplist_remove_window s w) w).skiplist_next x =
      (skiplist_remove_window s w).skiplist_next x := by
  have h1 : (skiplist_remove_window s w).skiplist_prev w = s.skiplist_prev w :=
    remove_stale_prev_eq s w hn
  have h2 : (skiplist_remove_window s w).skiplist_next w = s.skiplist_next w :=
    remove_stale_next_eq s w hp
  cases hp' : s.skiplist_prev w with
  | none => rw [remove_next_none _ _ _ (by rw [h1, hp'])]
  | some p₀ =>
    rw [remove_next_some _ _ _ p₀ (by rw [h1, hp'])]
    by_cases hxp : x = p₀
    · rw [if_pos hxp, h2, hxp, remove_next_some s w p₀ p₀ hp', if_pos rfl]
    · rw [if_neg hxp]

/-- Removing twice is a pointwise no-op on the `prev` map (idempotent
remove). -/
theorem remove_idem_prev (s : Atmosphere) (w x : Nat)
    (hp : s.skiplist_prev w ≠ some w) (hn : s.skiplist_next w ≠ some w) :
    (skiplist_remove_window (skiplist_remove_window s w) w).skiplist_prev x =
      (skiplist_remove_window s w).skiplist_prev x := by
  have h1 : (skiplist_remove_window s w).skiplist_prev w = s.skiplist_prev w :=
    remove_stale_prev_eq s w hn
  have h2 : (skiplist_remove_window s w).skiplist_next w = s.skiplist_next w :=
    remove_stale_next_eq s w hp
  cases hn' : s.skiplist_next w with
  | none => rw [remove_prev_none _ _ _ (by rw [h2, hn'])]
  | some n₀ =>
    rw [remove_prev_some _ _ _ n₀ (by rw [h2, hn'])]
    by_cases hxn : x = n₀
    · rw [if_pos hxn, h1, hxn, remove_prev_some s w n₀ n₀ hn', if_pos rfl]
    · rw [if_neg hxn]

/-- C6: remove-then-reinsert round trip.  For a duplicate-free list `L`
containing `w` and `m` with `w ≠ m`, `skiplist_remove_window(w)` followed by
`skiplist_place_above(w, m)` turns the chain of `L` into exactly the chain
of `L.erase w` with `w` spliced immediately before `m`: `w` immediately
precedes `m`, the size is again `L.length`, and erasing `w` gives back
`L.erase w`, so the relative order of the other windows is unchanged. -/
theorem C6_remove_reinsert_roundtrip (L : List Nat) (w m : Nat)
    (hnd : L.Nodup) (hw : w ∈ L) (hm : m ∈ L) (hwm : w ≠ m) :
    (∀ x, (skiplist_place_above (skiplist_remove_window (chainState L) w) w m).skiplist_next x
        = chainNext (insertBefore (L.erase w) m w) x) ∧
    (∀ x, (skiplist_place_above (skiplist_remove_window (chainState L) w) w m).skiplist_prev x
        = chainPrev (insertBefore (L.erase w) m w) x) ∧
    chainNext (insertBefore (L.erase w) m w) w = some m ∧
    (insertBefore (L.erase w) m w).length = L.length ∧
    (insertBefore (L.erase w) m w).erase w = L.erase w := by
  obtain ⟨A, B, rfl⟩ := List.append_of_mem hw
  obtain ⟨hA, hwB_nodup, hdisj⟩ := List.nodup_append.mp hnd
  have hwA : w ∉ A := fun h => hdisj h (List.mem_cons_self w B)
  have hwB : w ∉ B := (List.nodup_cons.mp hwB_nodup).1
  have hErase : (A ++ w :: B).erase w = A ++ B := by
    rw [List.erase_append_right _ hwA, List.erase_cons_head]
  have hMnd : (A ++ B).Nodup := by
    rw [← hErase]
    exact List.Nodup.erase w hnd
  have hmM : m ∈ A ++ B := by
    rw [← hErase]
    exact (List.mem_erase_of_ne (Ne.symm hwm)).mpr hm
  obtain ⟨C, D, hCD⟩ := List.append_of_mem hmM
  have hMnd' : (C ++ m :: D).Nodup := hCD ▸ hMnd
  obtain ⟨hC, hmD_nodup, hdisj'⟩ := List.nodup_append.mp hMnd'
  have hmC : m ∉ C := fun h => hdisj' h (List.mem_cons_self m D)
  have hmD : m ∉ D := (List.nodup_cons.mp hmD_nodup).1
  have hwM : w ∉ C ++ m :: D := by
    rw [← hCD]
    intro h
    rcases List.mem_append.mp h with h' | h'
    · exact hwA h'
    · exact hwB h'
  have hwC : w ∉ C := fun h => hwM (List.mem_append_left _ h)
  have hwD : w ∉ D :=
    fun h => hwM (List.mem_append_right _ (List.mem_cons_of_mem m h))
  have hwmD : w ∉ m :: D :=
    fun h => (List.mem_cons.mp h).elim (fun h' => hwm h') (fun h' => hwD h')
  have hL' : insertBefore ((A ++ w :: B).erase w) m w = C ++ w :: m :: D := by
    rw [hErase, hCD, insertBefore_eq C D m w hmC]
  have hp_ne : (chainState (A ++ w :: B)).skiplist_prev w ≠ some w := by
    rw [show (chainState (A ++ w :: B)).skiplist_prev w = A.getLast? from
      chain_w_prev A B w hwB]
    intro h
    exact hwA (List.mem_of_mem_getLast? h)
  have hn_ne : (chainState (A ++ w :: B)).skiplist_next w ≠ some w := by
    rw [show (chainState (A ++ w :: B)).skiplist_next w = B.head? from
      chain_w_next A B w hwA]
    intro h
    cases B with
    | nil => cases h
    | cons b B' =>
      rw [List.head?_cons] at h
      cases h
      exact hwB (List.mem_cons_self _ _)
  have hidem_n : ∀ x,
      (skiplist_remove_window (skiplist_remove_window (chainState (A ++ w :: B)) w)
        w).skiplist_next x =
      (skiplist_remove_window (chainState (A ++ w :: B)) w).skiplist_next x :=
    fun x => remove_idem_next _ w x hp_ne hn_ne
  have hidem_p : ∀ x,
      (skiplist_remove_window (skiplist_remove_window (chainState (A ++ w :: B)) w)
        w).skiplist_prev x =
      (skiplist_remove_window (chainState (A ++ w :: B)) w).skiplist_prev x :=
    fun x => remove_idem_prev _ w x hp_ne hn_ne
  have hq : (skiplist_remove_window (skiplist_remove_window (chainState (A ++ w :: B)) w)
      w).skiplist_prev m = C.getLast? := by
    rw [hidem_p m, chain_remove_prev A B w m hnd (Ne.symm hwm), hCD]
    exact chain_w_prev C D m hmD
  have hnextM : ∀ x, x ≠ w →
      (skiplist_remove_window (chainState (A ++ w :: B)) w).skiplist_next x =
        chainNext (C ++ m :: D) x := by
    intro x hx
    rw [chain_remove_next A B w x hnd hx, hCD]
  have hprevM : ∀ x, x ≠ w →
      (skiplist_remove_window (chainState (A ++ w :: B)) w).skiplist_prev x =
        chainPrev (C ++ m :: D) x := by
    intro x hx
    rw [chain_remove_prev A B w x hnd hx, hCD]
  refine ⟨?_, ?_, ?_, ?_, ?_⟩
  · rw [hL']
    intro x
    by_cases hxw : x = w
    · cases hCg : C.getLast? with
      | none =>
        rw [place_above_next_none _ _ _ _ (by rw [hq, hCg]), if_pos hxw, hxw,
          chain_w_next C (m :: D) w hwC]
        rfl
      | some q₀ =>
        rw [place_above_next_some _ _ _ _ q₀ (by rw [hq, hCg]), if_pos hxw, hxw,
          chain_w_next C (m :: D) w hwC]
        rfl
    · cases hCg : C.getLast? with
      | none =>
        have hCnil : C = [] := List.getLast?_eq_none_iff.mp hCg
        rw [place_above_next_none _ _ _ _ (by rw [hq, hCg]), if_neg hxw,
          hidem_n x, hnextM x hxw]
        subst hCnil
        show chainNext ([] ++ m :: D) x = chainNext ([] ++ w :: m :: D) x
        simp [chainNext, hxw]
      | some q₀ =>
        rw [place_above_next_some _ _ _ _ q₀ (by rw [hq, hCg]), if_neg hxw]
        have hq₀C : q₀ ∈ C := List.mem_of_mem_getLast? hCg
        by_cases hxq : x = q₀
        · rw [if_pos hxq, hxq]
          have hcq : chainNext C q₀ = none := chainNext_getLast_none C q₀ hCg hC
          rw [chainNext_append_mem_none C _ q₀ hq₀C hcq]
          rfl
        · rw [if_neg hxq, hidem_n x, hnextM x hxw]
          by_cases hxC : x ∈ C
          · cases hcx : chainNext C x with
            | none =>
              exfalso
              have hg := chainNext_none_getLast C x hxC hcx
              rw [hCg] at hg
              exact hxq (Option.some.inj hg).symm
            | some y =>
              rw [chainNext_append_mem_some C _ x y hxC hcx,
                chainNext_append_mem_some C _ x y hxC hcx]
          · rw [chainNext_append_not_mem C _ x hxC,
              chainNext_append_not_mem C _ x hxC]
            simp [chainNext, hxw]
  · rw [hL']
    intro x
    rw [place_above_prev_eq]
    by_cases hxw : x = w
    · rw [if_pos hxw, hq, hxw, chain_w_prev C (m :: D) w hwmD]
    · rw [if_neg hxw]
      by_cases hxm : x = m
      · rw [if_pos hxm, hxm, chainPrev_mid C D w m hmD]
      · rw [if_neg hxm, hidem_p x, hprevM x hxw, chainPrev_skip C D w m x hxw hxm]
  · rw [hL', chain_w_next C (m :: D) w hwC]
    rfl
  · rw [hL']
    have hlen := congrArg List.length hCD
    simp only [List.length_append, List.length_cons] at hlen ⊢
    omega
  · rw [hL', hErase, List.erase_append_right _ hwC, List.erase_cons_head, hCD]

/-- C6 witness: the round trip on the concrete list `[1, 2, 3]`, moving
window 3 in front of window 1. -/
theorem C6_remove_reinsert_roundtrip_witness :
    (skiplist_place_above (skiplist_remove_window (chainState [1, 2, 3]) 3) 3
        1).skiplist_next 3 =
      chainNext (insertBefore ([1, 2, 3].erase 3) 1 3) 3 ∧
    (skiplist_place_above (skiplist_remove_window (chainState [1, 2, 3]) 3) 3
        1).skiplist_prev 2 =
      chainPrev (insertBefore ([1, 2, 3].erase 3) 1 3) 2 ∧
    chainNext (insertBefore ([1, 2, 3].erase 3) 1 3) 3 = some 1 ∧
    (insertBefore ([1, 2, 3].erase 3) 1 3).length = [1, 2, 3].length ∧
    (insertBefore ([1, 2, 3].erase 3) 1 3).erase 3 = [1, 2, 3].erase 3 := by
  have h := C6_remove_reinsert_roundtrip [1, 2, 3] 3 1 (by decide) (by decide)
    (by decide) (by decide)
  exact ⟨h.1 3, h.2.1 2, h.2.2.1, h.2.2.2.1, h.2.2.2.2⟩

/-- C9 counterexample: `register_new_client` passes an id minted by
`mint_client_id` — and never by `mint_window_id` — to the window-namespace
operation `add_window_id`. -/
theorem C9_counterexample_client_id_registered_as_window :
    (Ways.register_new_client {}).1 ∈ (Ways.register_new_client {}).2.window_ids ∧
    (Ways.register_new_client {}).1 ∈ (Ways.register_new_client {}).2.clients_minted ∧
    (Ways.register_new_client {}).1 ∉ (Ways.register_new_client {}).2.windows_minted := by
  decide

/-- C9 amended: in the compositor revision the window and client id spaces
share ids: `register_new_client` registers the id it obtained from
`mint_client_id` via `add_window_id`, and mints nothing in the window id
space. -/
theorem C9_amended_client_id_reuse (s : Ways.AllocState) :
    (Ways.register_new_client s).1 = (Ways.mint_client_id s).1 ∧
    (Ways.register_new_client s).2.window_ids =
      (Ways.register_new_client s).1 :: s.window_ids ∧
    (Ways.register_new_client s).2.clients_minted =
      (Ways.register_new_client s).1 :: s.clients_minted ∧
    (Ways.register_new_client s).2.windows_minted = s.windows_minted :=
  ⟨rfl, rfl, rfl, rfl⟩
